import Mathlib

/-!
# NoiseEnhancer: the audio path of `Source/PluginProcessor.cpp`

A shallow embedding of `NoiseEnhancerAudioProcessor`: the parameter layout, the
bus-layout check, `prepareToPlay` and `processBlock`.

Conventions of the embedding.

* Samples and control values are `float` in the source.  Here they range over an
  arbitrary linearly ordered field `α` with exact arithmetic; every definition is
  computable and is evaluated at `α = ℚ` in the concrete examples.  Rounding,
  infinities and NaN are outside the model.
* The filter classes behind `m_envelopeFollowerFilter`, `m_triggerEnvelopeFollower`,
  `m_noiseEnvelopeFollower`, `m_highPassFilter` and `m_lowPassFilter` are declared
  outside the two source files.  `processBlock` is therefore embedded over an
  arbitrary implementation of them (`FilterClasses`); a separate instance follows
  the written description of the one-pole filter.
* `rand()` reads and writes the hidden state of the C library generator.  The state
  is threaded explicitly (`RandGen`).
* `std::pow (10, ·)` and `std::log10` are parameters (`Libm`).
* Mutable members and the audio buffer become explicit state (`BlockState`).
-/

namespace NoiseEnhancer

/-! ## Library functions -/

/-- The two transcendental functions of the C maths library that the decibel
conversions call: `pow10 x` stands for `std::pow (10, x)` and `log10` for
`std::log10`. -/
structure Libm (α : Type) where
  pow10 : α → α
  log10 : α → α

/-- The generator behind `rand()`: its hidden state, the constant `RAND_MAX`, and one
call, which returns the drawn integer and the next state. -/
structure RandGen where
  State : Type
  RAND_MAX : Int
  rand : State → Int × State

/-- Modelled from the spec: the finite floor of the decibel conversions, which the
description leaves unnamed.  The value is that of the JUCE library constant
`juce::Decibels::defaultMinusInfinitydB`, -100 dB. -/
def defaultMinusInfinitydB {α : Type} [LinearOrderedField α] : α := -100

/-- Modelled from the spec: `juce::Decibels::gainToDecibels` is a JUCE library function
and is not among the source files.  The conversion is `20·log10(gain)`, guarded against
the logarithm of zero or a negative number and clamped to a finite floor; the floor is
the library default of -100 dB, returned for every gain that is not positive. -/
def gainToDecibels {α : Type} [LinearOrderedField α] (M : Libm α) (gain : α) : α :=
  if gain > 0 then max defaultMinusInfinitydB (M.log10 gain * 20)
  else defaultMinusInfinitydB

/-- Modelled from the spec: `juce::Decibels::decibelsToGain` is a JUCE library function
and is not among the source files.  The gain of a level in decibels is
`10^(decibels/20)`; at or below the library floor of -100 dB the gain is zero. -/
def decibelsToGain {α : Type} [LinearOrderedField α] (M : Libm α) (decibels : α) : α :=
  if decibels > defaultMinusInfinitydB then M.pow10 (decibels * 0.05)
  else 0

/-! ## Parameters -/

/-- The table `NoiseEnhancerAudioProcessor::paramsNames`. -/
def paramsNames : List String :=
  ["Frequency", "Threshold", "Attack", "Release", "HP", "LP", "Mix", "Volume"]

/-- The arguments of `juce::NormalisableRange<float> (start, end, interval, skew)`. -/
structure NormalisableRange where
  rangeStart : ℚ
  rangeEnd : ℚ
  interval : ℚ
  skew : ℚ
deriving DecidableEq

/-- The arguments of `juce::AudioParameterFloat (id, name, range, default)`. -/
structure AudioParameterFloat where
  parameterID : String
  parameterName : String
  range : NormalisableRange
  defaultValue : ℚ
deriving DecidableEq

/-- Element `i` of `paramsNames`. -/
def paramName (i : Nat) : String := paramsNames.getD i ""

/-- The function `NoiseEnhancerAudioProcessor::createParameterLayout`: the parameters in
the order of the `layout.add` calls. -/
def createParameterLayout : List AudioParameterFloat :=
  [ ⟨paramName 0, paramName 0, ⟨20, 20000, 1, 0.3⟩, 1000⟩,
    ⟨paramName 1, paramName 1, ⟨-60, 0, 1, 1⟩, -12⟩,
    ⟨paramName 2, paramName 2, ⟨0, 200, 1, 1⟩, 10⟩,
    ⟨paramName 3, paramName 3, ⟨0, 200, 1, 1⟩, 10⟩,
    ⟨paramName 4, paramName 4, ⟨0, 20000, 1, 0.3⟩, 100⟩,
    ⟨paramName 5, paramName 5, ⟨20, 20000, 1, 0.3⟩, 10000⟩,
    ⟨paramName 6, paramName 6, ⟨0, 1, 0.05, 1⟩, 1⟩,
    ⟨paramName 7, paramName 7, ⟨-12, 12, 0.1, 1⟩, 0⟩ ]

/-- The eight values `processBlock` loads from the parameter atomics at block entry. -/
structure Parameters (α : Type) where
  Frequency : α
  Threshold : α
  Attack : α
  Release : α
  HP : α
  LP : α
  Mix : α
  Volume : α

/-! ## Bus layouts -/

/-- A `juce::AudioChannelSet`, as the list of the channel types it holds (JUCE numbers
them: left = 1, right = 2, centre = 3, ...), in increasing order. -/
abbrev AudioChannelSet := List Nat

/-- The set `juce::AudioChannelSet::mono()`: the centre channel. -/
def AudioChannelSet.mono : AudioChannelSet := [3]

/-- The set `juce::AudioChannelSet::stereo()`: left and right. -/
def AudioChannelSet.stereo : AudioChannelSet := [1, 2]

/-- A `BusesLayout` of the processor, which declares one input and one output bus. -/
structure BusesLayout where
  mainInput : AudioChannelSet
  mainOutput : AudioChannelSet
deriving DecidableEq

/-- The function `NoiseEnhancerAudioProcessor::isBusesLayoutSupported`; the two
preprocessor switches `JucePlugin_IsMidiEffect` and `JucePlugin_IsSynth` are arguments. -/
def isBusesLayoutSupported (isMidiEffect isSynth : Bool) (layouts : BusesLayout) : Bool :=
  if isMidiEffect then true
  else if layouts.mainOutput != AudioChannelSet.mono
      && layouts.mainOutput != AudioChannelSet.stereo then false
  else if !isSynth && layouts.mainOutput != layouts.mainInput then false
  else true

/-- The value of `getTotalNumOutputChannels()` under a layout: the size of the channel
set of the single output bus. -/
def getTotalNumOutputChannels (layouts : BusesLayout) : Nat :=
  layouts.mainOutput.length

/-! ## Filter objects -/

/-- The operations `processBlock` and `prepareToPlay` use on the five per-channel filter
members.  The classes are declared outside the source files, so each is an arbitrary
state type with `init (sampleRate)`, `setCoef (...)` and `process (x)`; `process`
returns the output sample and the updated object. -/
structure FilterClasses (α : Type) where
  EnvelopeFilter : Type
  TriggerFollower : Type
  NoiseFollower : Type
  HighPass : Type
  LowPass : Type
  envInit : Int → EnvelopeFilter → EnvelopeFilter
  envSetCoef : α → α → EnvelopeFilter → EnvelopeFilter
  envProcess : α → EnvelopeFilter → α × EnvelopeFilter
  trigInit : Int → TriggerFollower → TriggerFollower
  trigSetCoef : α → α → TriggerFollower → TriggerFollower
  trigProcess : α → TriggerFollower → α × TriggerFollower
  noiseInit : Int → NoiseFollower → NoiseFollower
  noiseSetCoef : α → α → NoiseFollower → NoiseFollower
  noiseProcess : α → NoiseFollower → α × NoiseFollower
  hpInit : Int → HighPass → HighPass
  hpSetCoef : α → HighPass → HighPass
  hpProcess : α → HighPass → α × HighPass
  lpInit : Int → LowPass → LowPass
  lpSetCoef : α → LowPass → LowPass
  lpProcess : α → LowPass → α × LowPass

/-- The five filter objects of one channel, named as the references `processBlock` binds
at the top of the channel loop. -/
structure Chain {α : Type} (F : FilterClasses α) where
  envelopeFollowerFilter : F.EnvelopeFilter
  triggerEnvelopeFollower : F.TriggerFollower
  noiseEnvelopeFollower : F.NoiseFollower
  highPassFilter : F.HighPass
  lowPassFilter : F.LowPass

/-- The five filter arrays of the processor, indexed by channel. -/
structure FilterArrays {α : Type} (F : FilterClasses α) where
  m_envelopeFollowerFilter : Nat → F.EnvelopeFilter
  m_triggerEnvelopeFollower : Nat → F.TriggerFollower
  m_noiseEnvelopeFollower : Nat → F.NoiseFollower
  m_highPassFilter : Nat → F.HighPass
  m_lowPassFilter : Nat → F.LowPass

/-- The objects at index `channel` of the five arrays. -/
def FilterArrays.chainAt {α : Type} {F : FilterClasses α} (m : FilterArrays F)
    (channel : Nat) : Chain F :=
  ⟨m.m_envelopeFollowerFilter channel, m.m_triggerEnvelopeFollower channel,
   m.m_noiseEnvelopeFollower channel, m.m_highPassFilter channel,
   m.m_lowPassFilter channel⟩

/-- Store the objects of one channel back at index `channel` of the five arrays. -/
def FilterArrays.setChainAt {α : Type} {F : FilterClasses α} (m : FilterArrays F)
    (channel : Nat) (c : Chain F) : FilterArrays F :=
  ⟨Function.update m.m_envelopeFollowerFilter channel c.envelopeFollowerFilter,
   Function.update m.m_triggerEnvelopeFollower channel c.triggerEnvelopeFollower,
   Function.update m.m_noiseEnvelopeFollower channel c.noiseEnvelopeFollower,
   Function.update m.m_highPassFilter channel c.highPassFilter,
   Function.update m.m_lowPassFilter channel c.lowPassFilter⟩

/-- The cast `(int)(sampleRate)` of a `double`: truncation toward zero. -/
def truncToInt {α : Type} [LinearOrderedField α] [FloorRing α] (x : α) : Int :=
  if 0 ≤ x then ⌊x⌋ else ⌈x⌉

/-- The function `NoiseEnhancerAudioProcessor::prepareToPlay`: `init` on elements 0 and
1 of each of the five arrays; `samplesPerBlock` is not used. -/
def prepareToPlay {α : Type} [LinearOrderedField α] [FloorRing α] (F : FilterClasses α)
    (sampleRate : α) (_samplesPerBlock : Int) (m : FilterArrays F) : FilterArrays F :=
  let sr := truncToInt sampleRate
  let e0 := Function.update m.m_envelopeFollowerFilter 0 (F.envInit sr (m.m_envelopeFollowerFilter 0))
  let e1 := Function.update e0 1 (F.envInit sr (e0 1))
  let t0 := Function.update m.m_triggerEnvelopeFollower 0 (F.trigInit sr (m.m_triggerEnvelopeFollower 0))
  let t1 := Function.update t0 1 (F.trigInit sr (t0 1))
  let n0 := Function.update m.m_noiseEnvelopeFollower 0 (F.noiseInit sr (m.m_noiseEnvelopeFollower 0))
  let n1 := Function.update n0 1 (F.noiseInit sr (n0 1))
  let h0 := Function.update m.m_highPassFilter 0 (F.hpInit sr (m.m_highPassFilter 0))
  let h1 := Function.update h0 1 (F.hpInit sr (h0 1))
  let l0 := Function.update m.m_lowPassFilter 0 (F.lpInit sr (m.m_lowPassFilter 0))
  let l1 := Function.update l0 1 (F.lpInit sr (l0 1))
  ⟨e1, t1, n1, h1, l1⟩

/-! ## `processBlock` -/

/-- The gate of the sample loop:
`(juce::Decibels::gainToDecibels (inEnvelopeFollower) > threshold) ? 1.0f : 0.0f`. -/
def isAboveThreshold {α : Type} [LinearOrderedField α] (M : Libm α)
    (inEnvelopeFollower threshold : α) : α :=
  if gainToDecibels M inEnvelopeFollower > threshold then 1 else 0

/-- The draw mapped by `(2.0f * rand() / RAND_MAX) - 1.0f`, for the drawn integer `r`. -/
def mappedDraw {α : Type} [LinearOrderedField α] (RAND_MAX r : Int) : α :=
  (2 * (r : α) / (RAND_MAX : α)) - 1

/-- The generated noise `0.125f * noiseVolume * ((2.0f * rand() / RAND_MAX) - 1.0f)`,
for the drawn integer `r`. -/
def generateNoise {α : Type} [LinearOrderedField α] (RAND_MAX : Int) (noiseVolume : α)
    (r : Int) : α :=
  0.125 * noiseVolume * mappedDraw RAND_MAX r

/-- The body of the sample loop of `processBlock` for one input sample `x`: the value
written back to `channelBuffer[sample]`, the five filter objects and the generator
state after the iteration. -/
def processSample {α : Type} [LinearOrderedField α] (F : FilterClasses α) (R : RandGen)
    (M : Libm α) (threshold mix mixInverse volume : α)
    (chain : Chain F) (rng : R.State) (x : α) : α × Chain F × R.State :=
  -- Input filter
  let inFilter := F.envProcess x chain.envelopeFollowerFilter
  -- Envelope follower
  let inEnvelopeFollower := F.trigProcess |inFilter.1| chain.triggerEnvelopeFollower
  -- Get noise volume
  let noiseVolume :=
    F.noiseProcess (isAboveThreshold M inEnvelopeFollower.1 threshold) chain.noiseEnvelopeFollower
  -- Generate noise
  let draw := R.rand rng
  let noise := generateNoise R.RAND_MAX noiseVolume.1 draw.1
  -- Filter noise
  let noiseHP := F.hpProcess noise chain.highPassFilter
  let noiseHPLP := F.lpProcess noiseHP.1 chain.lowPassFilter
  -- Apply volume
  (volume * (mix * noiseHPLP.1 + mixInverse * x),
   ⟨inFilter.2, inEnvelopeFollower.2, noiseVolume.2, noiseHP.2, noiseHPLP.2⟩,
   draw.2)

/-- The sample loop `for (sample = 0; sample < samples; ++sample)` over the samples of
one channel, in order: the samples written back, the filter objects and the generator
state after the last iteration. -/
def sampleLoop {α : Type} [LinearOrderedField α] (F : FilterClasses α) (R : RandGen)
    (M : Libm α) (threshold mix mixInverse volume : α) :
    Chain F → R.State → List α → List α × Chain F × R.State
  | chain, rng, [] => ([], chain, rng)
  | chain, rng, x :: xs =>
    let r := processSample F R M threshold mix mixInverse volume chain rng x
    let rest := sampleLoop F R M threshold mix mixInverse volume r.2.1 r.2.2 xs
    (r.1 :: rest.1, rest.2)

/-- The `setCoef` calls at the top of the channel loop. -/
def setCoefs {α : Type} [LinearOrderedField α] (F : FilterClasses α) (p : Parameters α)
    (chain : Chain F) : Chain F :=
  ⟨F.envSetCoef p.Frequency 0.8 chain.envelopeFollowerFilter,
   F.trigSetCoef 0 50 chain.triggerEnvelopeFollower,
   F.noiseSetCoef p.Attack p.Release chain.noiseEnvelopeFollower,
   F.hpSetCoef p.HP chain.highPassFilter,
   F.lpSetCoef p.LP chain.lowPassFilter⟩

/-- What one call of `processBlock` reads and writes: the generator state, the five
filter arrays and the audio buffer (one list of samples per channel). -/
structure BlockState {α : Type} (F : FilterClasses α) (R : RandGen) where
  rng : R.State
  filters : FilterArrays F
  buffer : List (List α)

/-- The body of the channel loop of `processBlock` for index `channel`: bind the five
filter objects of the channel, call `setCoef` on each, run the sample loop over the
channel's samples in place, and leave the objects updated in their arrays.  The number
of samples is the length of the channel's row; an index beyond the buffer's channels
reads an empty row and writes nothing. -/
def processChannel {α : Type} [LinearOrderedField α] (F : FilterClasses α) (R : RandGen)
    (M : Libm α) (p : Parameters α) (s : BlockState F R) (channel : Nat) :
    BlockState F R :=
  let r := sampleLoop F R M p.Threshold p.Mix (1 - p.Mix) (decibelsToGain M p.Volume)
    (setCoefs F p (s.filters.chainAt channel)) s.rng (s.buffer.getD channel [])
  ⟨r.2.2, s.filters.setChainAt channel r.2.1, s.buffer.set channel r.1⟩

/-- The function `NoiseEnhancerAudioProcessor::processBlock`, for `channels` output
channels: the channel loop `for (channel = 0; channel < channels; ++channel)`. -/
def processBlock {α : Type} [LinearOrderedField α] (F : FilterClasses α) (R : RandGen)
    (M : Libm α) (p : Parameters α) (channels : Nat) (s : BlockState F R) :
    BlockState F R :=
  (List.range channels).foldl (processChannel F R M p) s

/-- The filter objects of channel `channel` and the generator state at the moment the
sample loop of that channel reaches index `i`, in a call of `processBlock` from state
`s`: the channels before `channel` have been processed, the `setCoef` calls made, and
the samples before `i` gone through the loop body. -/
def stateAtSample {α : Type} [LinearOrderedField α] (F : FilterClasses α) (R : RandGen)
    (M : Libm α) (p : Parameters α) (s : BlockState F R) (channel i : Nat) :
    Chain F × R.State :=
  (sampleLoop F R M p.Threshold p.Mix (1 - p.Mix) (decibelsToGain M p.Volume)
    (setCoefs F p ((processBlock F R M p channel s).filters.chainAt channel))
    (processBlock F R M p channel s).rng
    (((processBlock F R M p channel s).buffer.getD channel []).take i)).2

/-- The generator state after `n` calls of `rand()`. -/
def RandGen.advance (R : RandGen) : Nat → R.State → R.State
  | 0, s => s
  | n + 1, s => RandGen.advance R n (R.rand s).2

/-- The number of samples, hence of `rand()` calls, of the channels processed before
index `channel`. -/
def drawsBefore {α : Type} (buffer : List (List α)) (channel : Nat) : Nat :=
  ((List.range channel).map (fun i => (buffer.getD i []).length)).sum

/-! ## The one-pole filter of the written description -/

/-- Modelled from the spec: the one-pole filter class behind the per-channel stages,
whose header and implementation are not among the source files.  A filter owns one
persistent state scalar, the previous output `y_prev`, the recorded sample rate, and
one or two coefficients (an attack and a release coefficient, equal in the cutoff
mode). -/
structure OnePoleFilter (α : Type) where
  sampleRate : Int
  y_prev : α
  attackCoef : α
  releaseCoef : α

/-- Modelled from the spec: the maps from control values to coefficients, which the
description gives only up to style (`exp(-2π·f/sampleRate)` for a cutoff,
`exp(-1/(sampleRate·timeConstant))` for a time constant), and the safe minimum that an
invalid sample rate is clamped to.  They are parameters of the model. -/
structure CoefMaps (α : Type) where
  safeMinimum : Int
  cutoffCoef : α → α → Int → α
  toneCoef : α → Int → α
  timeCoef : α → Int → α

/-- Modelled from the spec: `init(sampleRate)` resets the internal state to zero and
records the sample rate, clamping an invalid (≤ 0) rate to the safe minimum. -/
def OnePoleFilter.init {α : Type} [LinearOrderedField α] (K : CoefMaps α)
    (sampleRate : Int) (f : OnePoleFilter α) : OnePoleFilter α :=
  { f with sampleRate := if sampleRate ≤ 0 then K.safeMinimum else sampleRate, y_prev := 0 }

/-- Modelled from the spec: `setCoef(cutoffFrequency, qualityOrShape)`, the single
coefficient of the cutoff mode. -/
def OnePoleFilter.setCoefCutoff {α : Type} (K : CoefMaps α) (cutoff shape : α)
    (f : OnePoleFilter α) : OnePoleFilter α :=
  { f with attackCoef := K.cutoffCoef cutoff shape f.sampleRate,
           releaseCoef := K.cutoffCoef cutoff shape f.sampleRate }

/-- Modelled from the spec: `setCoef(cutoff)` of the two tone-shaping filters. -/
def OnePoleFilter.setCoefTone {α : Type} (K : CoefMaps α) (cutoff : α)
    (f : OnePoleFilter α) : OnePoleFilter α :=
  { f with attackCoef := K.toneCoef cutoff f.sampleRate,
           releaseCoef := K.toneCoef cutoff f.sampleRate }

/-- Modelled from the spec: `setCoef(attackMs, releaseMs)`, the asymmetric attack and
release coefficients. -/
def OnePoleFilter.setCoefTimes {α : Type} (K : CoefMaps α) (attackMs releaseMs : α)
    (f : OnePoleFilter α) : OnePoleFilter α :=
  { f with attackCoef := K.timeCoef attackMs f.sampleRate,
           releaseCoef := K.timeCoef releaseMs f.sampleRate }

/-- Modelled from the spec: `process(x)` gives `y = coef·y_prev + (1-coef)·x` and
updates `y_prev = y`; the attack coefficient is selected when the input exceeds the
stored state, the release coefficient otherwise. -/
def OnePoleFilter.process {α : Type} [LinearOrderedField α] (x : α)
    (f : OnePoleFilter α) : α × OnePoleFilter α :=
  let coef := if x > f.y_prev then f.attackCoef else f.releaseCoef
  let y := coef * f.y_prev + (1 - coef) * x
  (y, { f with y_prev := y })

/-- Modelled from the spec: the five per-channel stages as one-pole filters: the input
conditioning filter in the cutoff mode, the trigger and noise-volume followers in the
attack/release mode, the high-pass and low-pass tone-shaping filters. -/
def onePoleClasses {α : Type} [LinearOrderedField α] (K : CoefMaps α) : FilterClasses α where
  EnvelopeFilter := OnePoleFilter α
  TriggerFollower := OnePoleFilter α
  NoiseFollower := OnePoleFilter α
  HighPass := OnePoleFilter α
  LowPass := OnePoleFilter α
  envInit := OnePoleFilter.init K
  envSetCoef := OnePoleFilter.setCoefCutoff K
  envProcess := OnePoleFilter.process
  trigInit := OnePoleFilter.init K
  trigSetCoef := OnePoleFilter.setCoefTimes K
  trigProcess := OnePoleFilter.process
  noiseInit := OnePoleFilter.init K
  noiseSetCoef := OnePoleFilter.setCoefTimes K
  noiseProcess := OnePoleFilter.process
  hpInit := OnePoleFilter.init K
  hpSetCoef := OnePoleFilter.setCoefTone K
  hpProcess := OnePoleFilter.process
  lpInit := OnePoleFilter.init K
  lpSetCoef := OnePoleFilter.setCoefTone K
  lpProcess := OnePoleFilter.process

/-- The stored state of every filter of a channel is zero, as `init` leaves it. -/
def Chain.isReset {α : Type} [LinearOrderedField α] {K : CoefMaps α}
    (c : Chain (onePoleClasses K)) : Prop :=
  OnePoleFilter.y_prev c.envelopeFollowerFilter = 0 ∧
  OnePoleFilter.y_prev c.triggerEnvelopeFollower = 0 ∧
  OnePoleFilter.y_prev c.noiseEnvelopeFollower = 0 ∧
  OnePoleFilter.y_prev c.highPassFilter = 0 ∧
  OnePoleFilter.y_prev c.lowPassFilter = 0

/-! ## Concrete data for the evaluations -/

/-- The portable generator the C standard gives as an example implementation of
`rand()`: `next = next * 1103515245 + 12345; return (next / 65536) % 32768`, on a 32-bit
state, with `RAND_MAX = 32767`. -/
def stdRand : RandGen where
  State := Nat
  RAND_MAX := 32767
  rand := fun next =>
    let n := (next * 1103515245 + 12345) % 2 ^ 32
    (((n / 65536 % 32768 : Nat) : Int), n)

/-- Rational stand-ins for the two library functions, exact where the evaluations use
them: `pow10 0 = 1` and `log10 1 = 0`. -/
def ratLibm : Libm ℚ where
  pow10 := fun x => 10 ^ ⌊x⌋
  log10 := fun x => x - 1

/-- Coefficient maps for the evaluations: every coefficient is `1/2`. -/
def halfCoefs : CoefMaps ℚ where
  safeMinimum := 1
  cutoffCoef := fun _ _ _ => 1 / 2
  toneCoef := fun _ _ => 1 / 2
  timeCoef := fun _ _ => 1 / 2

/-- A filter object before `init`. -/
def rawFilter : OnePoleFilter ℚ := ⟨0, 0, 0, 0⟩

/-- The five filter arrays before `prepareToPlay`. -/
def rawArrays (K : CoefMaps ℚ) : FilterArrays (onePoleClasses K) :=
  ⟨fun _ => rawFilter, fun _ => rawFilter, fun _ => rawFilter, fun _ => rawFilter,
   fun _ => rawFilter⟩

/-- The default values of the eight parameters. -/
def defaultParameters : Parameters ℚ := ⟨1000, -12, 10, 10, 100, 10000, 1, 0⟩

/-- The five filter arrays after `prepareToPlay (48000, 512)`. -/
def preparedArrays (K : CoefMaps ℚ) : FilterArrays (onePoleClasses K) :=
  prepareToPlay (onePoleClasses K) 48000 512 (rawArrays K)

/-- The parameters of the mix-boundary scenario: `mix = 0`, `volume = +12 dB`. -/
def dryParameters : Parameters ℚ := ⟨1000, -12, 10, 10, 100, 10000, 0, 12⟩

/-- One channel holding the input `[1.0, -1.0, 0.5]`, prepared filters, seed 1. -/
def dryState : BlockState (onePoleClasses halfCoefs) stdRand :=
  ⟨(1 : Nat), preparedArrays halfCoefs, [[1, -1, 1 / 2]]⟩

/-- Two channels, each holding the single sample `4.0`, prepared filters, seed 1. -/
def stereoState : BlockState (onePoleClasses halfCoefs) stdRand :=
  ⟨(1 : Nat), preparedArrays halfCoefs, [[4], [4]]⟩

/-- The state `stereoState` with the sample of channel 0 replaced by `-3`. -/
def stereoStateAlt : BlockState (onePoleClasses halfCoefs) stdRand :=
  ⟨(1 : Nat), preparedArrays halfCoefs, [[-3], [4]]⟩

/-- Two silent channels of three samples, prepared filters, seed 1. -/
def silentState : BlockState (onePoleClasses halfCoefs) stdRand :=
  ⟨(1 : Nat), preparedArrays halfCoefs, [[0, 0, 0], [0, 0, 0]]⟩

/-- The stereo layout: stereo in, stereo out. -/
def stereoLayout : BusesLayout := ⟨AudioChannelSet.stereo, AudioChannelSet.stereo⟩

/-! ## Parameter layout -/

/-- C3: `createParameterLayout` registers exactly eight parameters, in the order
Frequency, Threshold, Attack, Release, HP, LP, Mix, Volume, with the ranges
[20,20000], [-60,0], [0,200], [0,200], [0,20000], [20,20000], [0,1], [-12,12] and the
defaults 1000, -12, 10, 10, 100, 10000, 1, 0, and every default lies in its range. -/
theorem createParameterLayout_spec :
    createParameterLayout.length = 8 ∧
    createParameterLayout.map
        (fun q => (q.parameterID, q.range.rangeStart, q.range.rangeEnd, q.defaultValue)) =
      [("Frequency", 20, 20000, 1000), ("Threshold", -60, 0, -12), ("Attack", 0, 200, 10),
       ("Release", 0, 200, 10), ("HP", 0, 20000, 100), ("LP", 20, 20000, 10000),
       ("Mix", 0, 1, 1), ("Volume", -12, 12, 0)] ∧
    ∀ q ∈ createParameterLayout,
      q.range.rangeStart ≤ q.defaultValue ∧ q.defaultValue ≤ q.range.rangeEnd := by
  refine ⟨rfl, ?_, ?_⟩
  · simp [createParameterLayout, paramName, paramsNames]
  · intro q hq
    simp only [createParameterLayout, List.mem_cons, List.mem_singleton, List.not_mem_nil,
      or_false] at hq
    rcases hq with h | h | h | h | h | h | h | h <;> subst h <;> norm_num

/-! ## The gate -/

section Gate

variable {α : Type} [LinearOrderedField α]

theorem gainToDecibels_floor (M : Libm α) (gain : α) : -100 ≤ gainToDecibels M gain := by
  unfold gainToDecibels defaultMinusInfinitydB
  split
  · exact le_max_left _ _
  · exact le_refl _

theorem gainToDecibels_nonpos (M : Libm α) (gain : α) (h : gain ≤ 0) :
    gainToDecibels M gain = -100 := by
  unfold gainToDecibels defaultMinusInfinitydB
  rw [if_neg (not_lt.mpr h)]

theorem isAboveThreshold_nonpos (M : Libm α) (e threshold : α) (he : e ≤ 0)
    (hth : -100 ≤ threshold) : isAboveThreshold M e threshold = 0 := by
  unfold isAboveThreshold
  rw [gainToDecibels_nonpos M e he, if_neg (not_lt.mpr hth)]

/-- C4: the decibel conversion used for the gate never goes below the finite floor of
-100 dB, so for a threshold in [-60, 0] dB and a trigger envelope `e ≤ 0` the gate
`isAboveThreshold` is 0; the gate is always 0 or 1, and for `e > 0` it is 1 exactly
when `20·log10 e`, floored at -100 dB, exceeds the threshold. -/
theorem isAboveThreshold_spec (M : Libm α) (e threshold : α)
    (hth : threshold ∈ Set.Icc (-60 : α) 0) :
    -100 ≤ gainToDecibels M e ∧
    (e ≤ 0 → isAboveThreshold M e threshold = 0) ∧
    (isAboveThreshold M e threshold = 0 ∨ isAboveThreshold M e threshold = 1) ∧
    (0 < e → (isAboveThreshold M e threshold = 1 ↔
      max (-100) (20 * M.log10 e) > threshold)) := by
  refine ⟨gainToDecibels_floor M e, ?_, ?_, ?_⟩
  · intro he
    exact isAboveThreshold_nonpos M e threshold he (le_trans (by norm_num) hth.1)
  · unfold isAboveThreshold
    split
    · exact Or.inr rfl
    · exact Or.inl rfl
  · intro he
    unfold isAboveThreshold gainToDecibels defaultMinusInfinitydB
    rw [if_pos he, mul_comm]
    split
    · rename_i h
      exact ⟨fun _ => h, fun _ => rfl⟩
    · rename_i h
      exact ⟨fun h1 => absurd h1 zero_ne_one, fun h2 => absurd h2 h⟩

theorem isAboveThreshold_spec_witness :
    -100 ≤ gainToDecibels ratLibm 0 ∧
    ((0 : ℚ) ≤ 0 → isAboveThreshold ratLibm 0 (-12) = 0) ∧
    (isAboveThreshold ratLibm 0 (-12) = 0 ∨ isAboveThreshold ratLibm 0 (-12) = 1) ∧
    ((0 : ℚ) < 0 → (isAboveThreshold ratLibm 0 (-12) = 1 ↔
      max (-100) (20 * ratLibm.log10 0) > -12)) :=
  isAboveThreshold_spec ratLibm 0 (-12) ⟨by norm_num, by norm_num⟩

end Gate

/-! ## Noise generation -/

section Noise

variable {α : Type} [LinearOrderedField α]

theorem mappedDraw_mem (RAND_MAX r : Int) (hR : 0 < RAND_MAX) (h0 : 0 ≤ r)
    (h1 : r ≤ RAND_MAX) :
    -1 ≤ (mappedDraw RAND_MAX r : α) ∧ (mappedDraw RAND_MAX r : α) ≤ 1 := by
  have hRa : (0 : α) < (RAND_MAX : α) := by exact_mod_cast hR
  have h0a : (0 : α) ≤ (r : α) := by exact_mod_cast h0
  have h1a : (r : α) ≤ (RAND_MAX : α) := by exact_mod_cast h1
  unfold mappedDraw
  constructor
  · have : 0 ≤ 2 * (r : α) / (RAND_MAX : α) := by positivity
    linarith
  · have : 2 * (r : α) / (RAND_MAX : α) ≤ 2 := by
      rw [div_le_iff₀ hRa]
      linarith
    linarith

/-- C5: for a draw `r` with `0 ≤ r ≤ RAND_MAX` (and `RAND_MAX` positive) and a
noise-volume envelope `noiseVol ≥ 0`, the mapped draw `2·r/RAND_MAX - 1` lies in
[-1, 1] and the generated noise `0.125·noiseVol·(2·r/RAND_MAX - 1)` has magnitude at
most `0.125·noiseVol`. -/
theorem generateNoise_bound (RAND_MAX r : Int) (noiseVol : α) (hR : 0 < RAND_MAX)
    (h0 : 0 ≤ r) (h1 : r ≤ RAND_MAX) (hv : 0 ≤ noiseVol) :
    (-1 ≤ (mappedDraw RAND_MAX r : α) ∧ (mappedDraw RAND_MAX r : α) ≤ 1) ∧
    |generateNoise RAND_MAX noiseVol r| ≤ 0.125 * noiseVol := by
  have hm := mappedDraw_mem (α := α) RAND_MAX r hR h0 h1
  refine ⟨hm, ?_⟩
  unfold generateNoise
  have hk : (0 : α) ≤ 0.125 * noiseVol := mul_nonneg (by norm_num) hv
  rw [abs_mul, abs_of_nonneg hk]
  have habs : |(mappedDraw RAND_MAX r : α)| ≤ 1 := abs_le.mpr hm
  calc 0.125 * noiseVol * |(mappedDraw RAND_MAX r : α)|
      ≤ 0.125 * noiseVol * 1 := mul_le_mul_of_nonneg_left habs hk
    _ = 0.125 * noiseVol := mul_one _

theorem generateNoise_bound_witness :
    (-1 ≤ (mappedDraw 32767 16838 : ℚ) ∧ (mappedDraw 32767 16838 : ℚ) ≤ 1) ∧
    |generateNoise 32767 (1 : ℚ) 16838| ≤ 0.125 * 1 :=
  generateNoise_bound 32767 16838 1 (by decide) (by decide) (by decide) (by norm_num)

end Noise

/-! ## The sample loop and the channel loop -/

theorem drawsBefore_succ {α : Type} (buffer : List (List α)) (n : Nat) :
    drawsBefore buffer (n + 1) = drawsBefore buffer n + (buffer.getD n []).length := by
  simp [drawsBefore, List.range_succ]

theorem drawsBefore_congr {α : Type} (b b' : List (List α))
    (h : ∀ c, (b.getD c []).length = (b'.getD c []).length) (n : Nat) :
    drawsBefore b n = drawsBefore b' n := by
  induction n with
  | zero => simp [drawsBefore]
  | succ n ih => rw [drawsBefore_succ, drawsBefore_succ, ih, h n]

section Block

variable {α : Type} [LinearOrderedField α] (F : FilterClasses α) (R : RandGen) (M : Libm α)

theorem advance_add (m n : Nat) (s : R.State) :
    R.advance (m + n) s = R.advance n (R.advance m s) := by
  induction m generalizing s with
  | zero => simp [RandGen.advance]
  | succ m ih =>
    rw [Nat.succ_add]
    exact ih (R.rand s).2

theorem sampleLoop_length (threshold mix mixInverse volume : α) (xs : List α)
    (chain : Chain F) (rng : R.State) :
    (sampleLoop F R M threshold mix mixInverse volume chain rng xs).1.length = xs.length := by
  induction xs generalizing chain rng with
  | nil => simp [sampleLoop]
  | cons x xs ih => simp [sampleLoop, ih]

theorem processSample_rng (threshold mix mixInverse volume : α) (x : α)
    (chain : Chain F) (rng : R.State) :
    (processSample F R M threshold mix mixInverse volume chain rng x).2.2 = (R.rand rng).2 :=
  rfl

theorem sampleLoop_rng (threshold mix mixInverse volume : α) (xs : List α)
    (chain : Chain F) (rng : R.State) :
    (sampleLoop F R M threshold mix mixInverse volume chain rng xs).2.2 =
      R.advance xs.length rng := by
  induction xs generalizing chain rng with
  | nil => simp [sampleLoop, RandGen.advance]
  | cons x xs ih => simp [sampleLoop, ih, RandGen.advance, processSample_rng]

theorem processBlock_succ (p : Parameters α) (n : Nat) (s : BlockState F R) :
    processBlock F R M p (n + 1) s =
      processChannel F R M p (processBlock F R M p n s) n := by
  simp [processBlock, List.range_succ, List.foldl_append]

theorem processChannel_rng (p : Parameters α) (s : BlockState F R) (channel : Nat) :
    (processChannel F R M p s channel).rng =
      R.advance (s.buffer.getD channel []).length s.rng := by
  simp [processChannel, sampleLoop_rng]

theorem processChannel_row_ne (p : Parameters α) (s : BlockState F R) (channel c : Nat)
    (h : c ≠ channel) :
    (processChannel F R M p s channel).buffer.getD c [] = s.buffer.getD c [] := by
  simp [processChannel, List.getD_eq_getElem?_getD, List.getElem?_set, Ne.symm h]

theorem processChannel_row_self (p : Parameters α) (s : BlockState F R) (channel : Nat) :
    (processChannel F R M p s channel).buffer.getD channel [] =
      (sampleLoop F R M p.Threshold p.Mix (1 - p.Mix) (decibelsToGain M p.Volume)
        (setCoefs F p (s.filters.chainAt channel)) s.rng (s.buffer.getD channel [])).1 := by
  by_cases h : channel < s.buffer.length
  · simp [processChannel, List.getD_eq_getElem?_getD, List.getElem?_set, h]
  · have hnone : s.buffer[channel]? = none := List.getElem?_eq_none (by omega)
    simp [processChannel, List.getD_eq_getElem?_getD, List.getElem?_set, h, hnone, sampleLoop]

theorem processChannel_chain_ne (p : Parameters α) (s : BlockState F R) (channel c : Nat)
    (h : c ≠ channel) :
    (processChannel F R M p s channel).filters.chainAt c = s.filters.chainAt c := by
  simp [processChannel, FilterArrays.chainAt, FilterArrays.setChainAt, Function.update, h]

theorem processChannel_chain_self (p : Parameters α) (s : BlockState F R) (channel : Nat) :
    (processChannel F R M p s channel).filters.chainAt channel =
      (sampleLoop F R M p.Threshold p.Mix (1 - p.Mix) (decibelsToGain M p.Volume)
        (setCoefs F p (s.filters.chainAt channel)) s.rng (s.buffer.getD channel [])).2.1 := by
  simp [processChannel, FilterArrays.chainAt, FilterArrays.setChainAt, Function.update]

theorem processBlock_frame (p : Parameters α) (n : Nat) (s : BlockState F R) (c : Nat)
    (h : n ≤ c) :
    (processBlock F R M p n s).buffer.getD c [] = s.buffer.getD c [] ∧
    (processBlock F R M p n s).filters.chainAt c = s.filters.chainAt c := by
  induction n with
  | zero => simp [processBlock]
  | succ n ih =>
    have hne : c ≠ n := by omega
    rw [processBlock_succ, processChannel_row_ne F R M p _ n c hne,
      processChannel_chain_ne F R M p _ n c hne]
    exact ih (by omega)

theorem processBlock_rng (p : Parameters α) (n : Nat) (s : BlockState F R) :
    (processBlock F R M p n s).rng = R.advance (drawsBefore s.buffer n) s.rng := by
  induction n with
  | zero => simp [processBlock, drawsBefore, RandGen.advance]
  | succ n ih =>
    rw [processBlock_succ, processChannel_rng, ih,
      (processBlock_frame F R M p n s n (le_refl n)).1, drawsBefore_succ, advance_add]

theorem processBlock_row (p : Parameters α) (n : Nat) (s : BlockState F R) (c : Nat)
    (h : c < n) :
    (processBlock F R M p n s).buffer.getD c [] =
      (sampleLoop F R M p.Threshold p.Mix (1 - p.Mix) (decibelsToGain M p.Volume)
        (setCoefs F p (s.filters.chainAt c)) (R.advance (drawsBefore s.buffer c) s.rng)
        (s.buffer.getD c [])).1 := by
  induction n with
  | zero => omega
  | succ n ih =>
    rw [processBlock_succ]
    by_cases hc : c = n
    · subst hc
      rw [processChannel_row_self, processBlock_rng,
        (processBlock_frame F R M p c s c (le_refl c)).1,
        (processBlock_frame F R M p c s c (le_refl c)).2]
    · rw [processChannel_row_ne F R M p _ n c hc]
      exact ih (by omega)

theorem processBlock_chain (p : Parameters α) (n : Nat) (s : BlockState F R) (c : Nat)
    (h : c < n) :
    (processBlock F R M p n s).filters.chainAt c =
      (sampleLoop F R M p.Threshold p.Mix (1 - p.Mix) (decibelsToGain M p.Volume)
        (setCoefs F p (s.filters.chainAt c)) (R.advance (drawsBefore s.buffer c) s.rng)
        (s.buffer.getD c [])).2.1 := by
  induction n with
  | zero => omega
  | succ n ih =>
    rw [processBlock_succ]
    by_cases hc : c = n
    · subst hc
      rw [processChannel_chain_self, processBlock_rng,
        (processBlock_frame F R M p c s c (le_refl c)).1,
        (processBlock_frame F R M p c s c (le_refl c)).2]
    · rw [processChannel_chain_ne F R M p _ n c hc]
      exact ih (by omega)

end Block

/-! ## Mix boundary and output gain -/

section Gain

variable {α : Type} [LinearOrderedField α] (F : FilterClasses α) (R : RandGen) (M : Libm α)

theorem sampleLoop_mix_zero (threshold volume : α) (xs : List α) (chain : Chain F)
    (rng : R.State) :
    (sampleLoop F R M threshold 0 (1 - 0) volume chain rng xs).1 =
      xs.map (fun x => volume * x) := by
  induction xs generalizing chain rng with
  | nil => simp [sampleLoop]
  | cons x xs ih =>
    simp only [sampleLoop, List.map_cons, ih]
    congr 1
    simp [processSample]

/-- C1: with `mix = 0`, for every channel that `processBlock` iterates, every sample it
writes is `volumeGain * in`, where `volumeGain = decibelsToGain (Volume)`, whatever the
other parameters, the filter objects, their states and the pseudo-random draws. -/
theorem processBlock_mix_zero (p : Parameters α) (hmix : p.Mix = 0) (channels : Nat)
    (s : BlockState F R) (channel : Nat) (hc : channel < channels) :
    (processBlock F R M p channels s).buffer.getD channel [] =
      (s.buffer.getD channel []).map (fun x => decibelsToGain M p.Volume * x) := by
  rw [processBlock_row F R M p channels s channel hc, hmix]
  exact sampleLoop_mix_zero F R M _ _ _ _ _

theorem sampleLoop_volume (threshold mix mixInverse volume : α) (xs : List α)
    (chain : Chain F) (rng : R.State) :
    sampleLoop F R M threshold mix mixInverse volume chain rng xs =
      ((sampleLoop F R M threshold mix mixInverse 1 chain rng xs).1.map (fun y => volume * y),
       (sampleLoop F R M threshold mix mixInverse 1 chain rng xs).2) := by
  induction xs generalizing chain rng with
  | nil => simp [sampleLoop]
  | cons x xs ih =>
    have hs : (processSample F R M threshold mix mixInverse volume chain rng x).2 =
        (processSample F R M threshold mix mixInverse 1 chain rng x).2 := rfl
    have ho : (processSample F R M threshold mix mixInverse volume chain rng x).1 =
        volume * (processSample F R M threshold mix mixInverse 1 chain rng x).1 := by
      simp [processSample]
    simp only [sampleLoop, List.map_cons]
    rw [ih, hs, ho]

theorem decibelsToGain_nonneg (hpos : ∀ x, 0 ≤ M.pow10 x) (v : α) :
    0 ≤ decibelsToGain M v := by
  unfold decibelsToGain
  split
  · exact hpos _
  · exact le_refl _

theorem decibelsToGain_mono (hmono : Monotone M.pow10) (hpos : ∀ x, 0 ≤ M.pow10 x)
    (v1 v2 : α) (hv : v1 ≤ v2) : decibelsToGain M v1 ≤ decibelsToGain M v2 := by
  by_cases h1 : v1 > defaultMinusInfinitydB
  · have h2 : v2 > defaultMinusInfinitydB := lt_of_lt_of_le h1 hv
    unfold decibelsToGain
    rw [if_pos h1, if_pos h2]
    exact hmono (mul_le_mul_of_nonneg_right hv (by norm_num))
  · have h0 : decibelsToGain M v1 = 0 := by
      unfold decibelsToGain
      rw [if_neg h1]
    rw [h0]
    exact decibelsToGain_nonneg M hpos v2

/-- C6: for two Volume settings `v1 ≤ v2` and otherwise the same parameters, input,
filter states and generator state, every output sample of `processBlock` under `v1`
is at most as large in magnitude as the same sample under `v2`; the library power
function is taken to be monotone and non-negative, as `10^x` is. -/
theorem processBlock_gain_monotone (hmono : Monotone M.pow10)
    (hpos : ∀ x, 0 ≤ M.pow10 x) (p : Parameters α) (v1 v2 : α) (hv : v1 ≤ v2)
    (channels : Nat) (s : BlockState F R) (channel : Nat) (hc : channel < channels) :
    List.Forall₂ (fun y1 y2 => |y1| ≤ |y2|)
      ((processBlock F R M { p with Volume := v1 } channels s).buffer.getD channel [])
      ((processBlock F R M { p with Volume := v2 } channels s).buffer.getD channel []) := by
  rw [processBlock_row F R M _ channels s channel hc,
    processBlock_row F R M _ channels s channel hc, sampleLoop_volume]
  conv => rhs; rw [sampleLoop_volume]
  simp only [setCoefs]
  rw [List.forall₂_map_left_iff, List.forall₂_map_right_iff, List.forall₂_same]
  intro y _
  have h1 := decibelsToGain_nonneg M hpos v1
  have h12 := decibelsToGain_mono M hmono hpos v1 v2 hv
  rw [abs_mul, abs_mul, abs_of_nonneg h1, abs_of_nonneg (le_trans h1 h12)]
  exact mul_le_mul_of_nonneg_right h12 (abs_nonneg y)

end Gain

/-! ## Channels and the shared generator -/

section Channels

variable {α : Type} [LinearOrderedField α] (F : FilterClasses α) (R : RandGen) (M : Libm α)

/-- C7, as amended: the five filter objects of a channel are read and written only
while that channel is processed, but the `rand()` generator is shared.  The output of
channel `c` is the sample loop run on channel `c`'s input, its own filter objects and
the block parameters, started from the generator state of block entry advanced by one
draw for every sample of the channels processed before it; processing a channel leaves
the filter objects of every other channel as they were. -/
theorem processBlock_channel_output (p : Parameters α) (channels : Nat)
    (s : BlockState F R) (c : Nat) (hc : c < channels) :
    (processBlock F R M p channels s).buffer.getD c [] =
      (sampleLoop F R M p.Threshold p.Mix (1 - p.Mix) (decibelsToGain M p.Volume)
        (setCoefs F p (s.filters.chainAt c)) (R.advance (drawsBefore s.buffer c) s.rng)
        (s.buffer.getD c [])).1 ∧
    (processBlock F R M p channels s).filters.chainAt c =
      (sampleLoop F R M p.Threshold p.Mix (1 - p.Mix) (decibelsToGain M p.Volume)
        (setCoefs F p (s.filters.chainAt c)) (R.advance (drawsBefore s.buffer c) s.rng)
        (s.buffer.getD c [])).2.1 ∧
    ∀ d, d ≠ c → ∀ t : BlockState F R,
      (processChannel F R M p t d).filters.chainAt c = t.filters.chainAt c :=
  ⟨processBlock_row F R M p channels s c hc, processBlock_chain F R M p channels s c hc,
   fun d hd t => processChannel_chain_ne F R M p t d c (Ne.symm hd)⟩

/-- C10: two runs of `processBlock` from the same filter objects, the same generator
state and the same parameters, on buffers of the same block length that differ only in
the samples of channel 0, write the same samples to every other channel, channel 1 in
particular. -/
theorem processBlock_noninterference (p : Parameters α) (channels : Nat)
    (rng : R.State) (filters : FilterArrays F) (b b' : List (List α))
    (hlen : (b.getD 0 []).length = (b'.getD 0 []).length)
    (hsame : ∀ c, c ≠ 0 → b.getD c [] = b'.getD c []) (c : Nat) (hc : c ≠ 0) :
    (processBlock F R M p channels ⟨rng, filters, b⟩).buffer.getD c [] =
      (processBlock F R M p channels ⟨rng, filters, b'⟩).buffer.getD c [] := by
  have hl : ∀ d, (b.getD d []).length = (b'.getD d []).length := by
    intro d
    by_cases hd : d = 0
    · subst hd
      exact hlen
    · rw [hsame d hd]
  by_cases h : c < channels
  · rw [processBlock_row F R M p channels _ c h, processBlock_row F R M p channels _ c h]
    simp only
    rw [drawsBefore_congr b b' hl c, hsame c hc]
  · rw [(processBlock_frame F R M p channels _ c (not_lt.mp h)).1,
      (processBlock_frame F R M p channels _ c (not_lt.mp h)).1]
    exact hsame c hc

end Channels

/-! ## The per-sample pipeline -/

section Pipeline

variable {α : Type} [LinearOrderedField α] (F : FilterClasses α) (R : RandGen) (M : Libm α)

theorem sampleLoop_step (threshold mix mixInverse volume : α) (xs : List α) (i : Nat)
    (hi : i < xs.length) (chain : Chain F) (rng : R.State) :
    (sampleLoop F R M threshold mix mixInverse volume chain rng xs).1.getD i 0 =
      (processSample F R M threshold mix mixInverse volume
        (sampleLoop F R M threshold mix mixInverse volume chain rng (xs.take i)).2.1
        (sampleLoop F R M threshold mix mixInverse volume chain rng (xs.take i)).2.2
        (xs.getD i 0)).1 ∧
    (sampleLoop F R M threshold mix mixInverse volume chain rng (xs.take (i + 1))).2 =
      (processSample F R M threshold mix mixInverse volume
        (sampleLoop F R M threshold mix mixInverse volume chain rng (xs.take i)).2.1
        (sampleLoop F R M threshold mix mixInverse volume chain rng (xs.take i)).2.2
        (xs.getD i 0)).2 := by
  induction xs generalizing i chain rng with
  | nil => simp at hi
  | cons x xs ih =>
    cases i with
    | zero => simp [sampleLoop]
    | succ j =>
      have hj : j < xs.length := by simpa using hi
      have h := ih j hj (processSample F R M threshold mix mixInverse volume chain rng x).2.1
        (processSample F R M threshold mix mixInverse volume chain rng x).2.2
      simpa [sampleLoop] using h

/-- C2: in `processBlock`, for every channel iterated and every sample index `i` of
the block, with `pre` the filter objects and generator state when the loop reaches
that sample and `x` the input sample, the value written back is
`volumeGain * (mix * noiseHPLP + (1 - mix) * x)`, where
`noiseHPLP = LP.process (HP.process (0.125 * noiseVol * u))`, `u = 2·rand()/RAND_MAX - 1`,
`noiseVol = noiseFollower.process (gate)` and `gate` is 1 if
`gainToDecibels (triggerFollower.process (|inputFilter.process (x)|)) > threshold`, else
0; and the state when the loop reaches the next index is `pre` with each of the five
filter objects replaced by the result of its one `process` call and the generator
advanced by its one draw, whatever the gate. -/
theorem processBlock_sample_pipeline (p : Parameters α) (channels : Nat)
    (s : BlockState F R) (channel : Nat) (hc : channel < channels) (i : Nat)
    (hi : i < (s.buffer.getD channel []).length) :
    let x := (s.buffer.getD channel []).getD i 0
    let pre := stateAtSample F R M p s channel i
    let inFilter := F.envProcess x pre.1.envelopeFollowerFilter
    let triggerEnv := F.trigProcess |inFilter.1| pre.1.triggerEnvelopeFollower
    let gate : α := if gainToDecibels M triggerEnv.1 > p.Threshold then 1 else 0
    let noiseVol := F.noiseProcess gate pre.1.noiseEnvelopeFollower
    let u : α := 2 * ((R.rand pre.2).1 : α) / (R.RAND_MAX : α) - 1
    let noiseHP := F.hpProcess (0.125 * noiseVol.1 * u) pre.1.highPassFilter
    let noiseHPLP := F.lpProcess noiseHP.1 pre.1.lowPassFilter
    ((processBlock F R M p channels s).buffer.getD channel []).getD i 0 =
        decibelsToGain M p.Volume * (p.Mix * noiseHPLP.1 + (1 - p.Mix) * x) ∧
      stateAtSample F R M p s channel (i + 1) =
        (⟨inFilter.2, triggerEnv.2, noiseVol.2, noiseHP.2, noiseHPLP.2⟩, (R.rand pre.2).2) := by
  intro x pre inFilter triggerEnv gate noiseVol u noiseHP noiseHPLP
  have hrow := (processBlock_frame F R M p channel s channel (le_refl _)).1
  have hstep := sampleLoop_step F R M p.Threshold p.Mix (1 - p.Mix)
    (decibelsToGain M p.Volume) (s.buffer.getD channel []) i hi
    (setCoefs F p ((processBlock F R M p channel s).filters.chainAt channel))
    (processBlock F R M p channel s).rng
  constructor
  · rw [processBlock_row F R M p channels s channel hc,
      ← (processBlock_frame F R M p channel s channel (le_refl _)).2,
      ← processBlock_rng F R M p channel s, hstep.1]
    simp only [stateAtSample, hrow, x, pre, inFilter, triggerEnv, gate, noiseVol, u, noiseHP,
      noiseHPLP, processSample, isAboveThreshold, generateNoise, mappedDraw]
  · have h2 := hstep.2
    simp only [stateAtSample, hrow, x, pre, inFilter, triggerEnv, gate, noiseVol, u, noiseHP,
      noiseHPLP] at h2 ⊢
    rw [h2]
    simp only [processSample, isAboveThreshold, generateNoise, mappedDraw]

end Pipeline

/-! ## Bus layouts and prepared channels -/

theorem prepareToPlay_chainAt {α : Type} [LinearOrderedField α] [FloorRing α]
    (F : FilterClasses α) (sampleRate : α) (samplesPerBlock : Int) (m : FilterArrays F)
    (channel : Nat) (h : channel = 0 ∨ channel = 1) :
    (prepareToPlay F sampleRate samplesPerBlock m).chainAt channel =
      ⟨F.envInit (truncToInt sampleRate) (m.m_envelopeFollowerFilter channel),
       F.trigInit (truncToInt sampleRate) (m.m_triggerEnvelopeFollower channel),
       F.noiseInit (truncToInt sampleRate) (m.m_noiseEnvelopeFollower channel),
       F.hpInit (truncToInt sampleRate) (m.m_highPassFilter channel),
       F.lpInit (truncToInt sampleRate) (m.m_lowPassFilter channel)⟩ := by
  rcases h with h | h <;> subst h <;>
    simp [prepareToPlay, FilterArrays.chainAt, Function.update]

theorem supported_iff (layouts : BusesLayout) :
    isBusesLayoutSupported false false layouts = true ↔
      (layouts.mainOutput = AudioChannelSet.mono ∨
        layouts.mainOutput = AudioChannelSet.stereo) ∧
      layouts.mainInput = layouts.mainOutput := by
  unfold isBusesLayoutSupported
  simp only [Bool.false_eq_true, if_false, Bool.not_false, Bool.true_and, Bool.and_eq_true,
    bne_iff_ne, ne_eq]
  split_ifs with a b
  · constructor
    · intro h
      exact absurd h (by decide)
    · intro h
      rcases h.1 with h1 | h1
      · exact absurd h1 a.1
      · exact absurd h1 a.2
  · constructor
    · intro _
      refine ⟨?_, b.symm⟩
      by_contra hcon
      exact a ⟨fun h => hcon (Or.inl h), fun h => hcon (Or.inr h)⟩
    · intro _
      trivial
  · constructor
    · intro h
      exact absurd h (by simp)
    · intro h
      exact absurd h.2.symm b

theorem supported_channels (isSynth : Bool) (layouts : BusesLayout)
    (h : isBusesLayoutSupported false isSynth layouts = true) :
    getTotalNumOutputChannels layouts ≤ 2 := by
  unfold isBusesLayoutSupported at h
  unfold getTotalNumOutputChannels
  by_cases h1 : layouts.mainOutput = AudioChannelSet.mono
  · rw [h1]
    decide
  · by_cases h2 : layouts.mainOutput = AudioChannelSet.stereo
    · rw [h2]
      decide
    · simp [h1, h2] at h

/-- C8: with the plugin built as an audio effect (neither preprocessor switch set),
`isBusesLayoutSupported` accepts a layout exactly when the main output is mono or
stereo and the input layout equals it, and rejects every other layout; for an accepted
layout the channel count `processBlock` iterates is at most 2, so every channel index
it uses is 0 or 1, and at that index each of the five filter arrays holds the object
`prepareToPlay` initialised with the sample rate. -/
theorem prepareToPlay_covers_channels {α : Type} [LinearOrderedField α] [FloorRing α]
    (F : FilterClasses α) (sampleRate : α) (samplesPerBlock : Int) (m : FilterArrays F)
    (layouts : BusesLayout) :
    (isBusesLayoutSupported false false layouts = true ↔
      (layouts.mainOutput = AudioChannelSet.mono ∨
        layouts.mainOutput = AudioChannelSet.stereo) ∧
      layouts.mainInput = layouts.mainOutput) ∧
    (isBusesLayoutSupported false false layouts = true →
      getTotalNumOutputChannels layouts ≤ 2 ∧
      ∀ channel, channel < getTotalNumOutputChannels layouts →
        (channel = 0 ∨ channel = 1) ∧
        (prepareToPlay F sampleRate samplesPerBlock m).chainAt channel =
          ⟨F.envInit (truncToInt sampleRate) (m.m_envelopeFollowerFilter channel),
           F.trigInit (truncToInt sampleRate) (m.m_triggerEnvelopeFollower channel),
           F.noiseInit (truncToInt sampleRate) (m.m_noiseEnvelopeFollower channel),
           F.hpInit (truncToInt sampleRate) (m.m_highPassFilter channel),
           F.lpInit (truncToInt sampleRate) (m.m_lowPassFilter channel)⟩) := by
  refine ⟨supported_iff layouts, fun h => ⟨supported_channels false layouts h, ?_⟩⟩
  intro channel hc
  have h2 := supported_channels false layouts h
  have h01 : channel = 0 ∨ channel = 1 := by omega
  exact ⟨h01, prepareToPlay_chainAt F sampleRate samplesPerBlock m channel h01⟩

/-! ## Silence -/

section Silence

variable {α : Type} [LinearOrderedField α] (K : CoefMaps α) (R : RandGen) (M : Libm α)

theorem OnePoleFilter.process_zero (f : OnePoleFilter α) (h : f.y_prev = 0) :
    OnePoleFilter.process 0 f = (0, f) := by
  cases f with
  | mk sr y a r =>
    simp only at h
    subst h
    simp [OnePoleFilter.process]

theorem processSample_silence (threshold mix mixInverse volume : α)
    (hth : -100 ≤ threshold) (chain : Chain (onePoleClasses K)) (hr : chain.isReset)
    (rng : R.State) :
    processSample (onePoleClasses K) R M threshold mix mixInverse volume chain rng 0 =
      (0, chain, (R.rand rng).2) := by
  obtain ⟨h1, h2, h3, h4, h5⟩ := hr
  have e1 : (onePoleClasses K).envProcess 0 chain.envelopeFollowerFilter =
      (0, chain.envelopeFollowerFilter) := OnePoleFilter.process_zero _ h1
  have e2 : (onePoleClasses K).trigProcess 0 chain.triggerEnvelopeFollower =
      (0, chain.triggerEnvelopeFollower) := OnePoleFilter.process_zero _ h2
  have e3 : (onePoleClasses K).noiseProcess 0 chain.noiseEnvelopeFollower =
      (0, chain.noiseEnvelopeFollower) := OnePoleFilter.process_zero _ h3
  have e4 : (onePoleClasses K).hpProcess 0 chain.highPassFilter =
      (0, chain.highPassFilter) := OnePoleFilter.process_zero _ h4
  have e5 : (onePoleClasses K).lpProcess 0 chain.lowPassFilter =
      (0, chain.lowPassFilter) := OnePoleFilter.process_zero _ h5
  have hg : isAboveThreshold M 0 threshold = 0 :=
    isAboveThreshold_nonpos M 0 threshold (le_refl 0) hth
  have hn : generateNoise R.RAND_MAX (0 : α) (R.rand rng).1 = 0 := by
    simp [generateNoise]
  simp only [processSample, e1, abs_zero, e2, hg, e3, hn, e4, e5]
  simp

theorem sampleLoop_silence (threshold mix mixInverse volume : α)
    (hth : -100 ≤ threshold) (xs : List α) (hxs : ∀ x ∈ xs, x = 0)
    (chain : Chain (onePoleClasses K)) (hr : chain.isReset) (rng : R.State) :
    (sampleLoop (onePoleClasses K) R M threshold mix mixInverse volume chain rng xs).1 = xs ∧
    (sampleLoop (onePoleClasses K) R M threshold mix mixInverse volume chain rng xs).2.1 =
      chain := by
  induction xs generalizing rng with
  | nil => simp [sampleLoop]
  | cons x xs ih =>
    have hx : x = 0 := hxs x (List.mem_cons_self x xs)
    subst hx
    have hrest := ih (fun y hy => hxs y (List.mem_cons_of_mem _ hy)) (R.rand rng).2
    simp only [sampleLoop, processSample_silence K R M threshold mix mixInverse volume hth chain hr]
    exact ⟨by rw [hrest.1], hrest.2⟩

theorem setCoefs_isReset (p : Parameters α) (chain : Chain (onePoleClasses K))
    (hr : chain.isReset) : (setCoefs (onePoleClasses K) p chain).isReset := hr

theorem list_set_getD_self {β : Type} (l : List β) (i : Nat) (d : β) :
    l.set i (l.getD i d) = l := by
  induction l generalizing i with
  | nil => rfl
  | cons a l ih =>
    cases i with
    | zero => rfl
    | succ j =>
      have h := ih j
      simp only [List.getD_eq_getElem?_getD, List.getElem?_cons_succ, List.set_cons_succ] at h ⊢
      rw [h]

theorem processChannel_silence (p : Parameters α) (hth : -100 ≤ p.Threshold)
    (s : BlockState (onePoleClasses K) R) (channel : Nat)
    (hr : (s.filters.chainAt channel).isReset)
    (hzero : ∀ row ∈ s.buffer, ∀ x ∈ row, x = 0) :
    (processChannel (onePoleClasses K) R M p s channel).buffer = s.buffer ∧
    ∀ c, (s.filters.chainAt c).isReset →
      ((processChannel (onePoleClasses K) R M p s channel).filters.chainAt c).isReset := by
  have hrow : ∀ x ∈ s.buffer.getD channel [], x = 0 := by
    intro x hx
    by_cases h : channel < s.buffer.length
    · rw [List.getD_eq_getElem?_getD, List.getElem?_eq_getElem h] at hx
      exact hzero _ (List.getElem_mem h) x hx
    · rw [List.getD_eq_getElem?_getD, List.getElem?_eq_none (not_lt.mp h)] at hx
      simp at hx
  have hloop := sampleLoop_silence K R M p.Threshold p.Mix (1 - p.Mix)
    (decibelsToGain M p.Volume) hth (s.buffer.getD channel []) hrow
    (setCoefs (onePoleClasses K) p (s.filters.chainAt channel))
    (setCoefs_isReset K p _ hr) s.rng
  constructor
  · simp only [processChannel]
    rw [hloop.1]
    exact list_set_getD_self _ _ _
  · intro c hcr
    by_cases hc : c = channel
    · subst hc
      rw [processChannel_chain_self, hloop.2]
      exact setCoefs_isReset K p _ hr
    · rw [processChannel_chain_ne _ R M p s channel c hc]
      exact hcr

/-- C9: with the filters of the written description, from filter objects whose stored
states are all zero (as `prepareToPlay` leaves them), for an all-zero input block of any
length, every threshold in [-60, 0] dB and every mix, volume and sequence of draws,
`processBlock` writes zero to every sample (the block is returned unchanged) and the
stored filter states are zero again afterwards. -/
theorem processBlock_silence (p : Parameters α) (hth : p.Threshold ∈ Set.Icc (-60 : α) 0)
    (channels : Nat) (s : BlockState (onePoleClasses K) R)
    (hreset : ∀ c, c < channels → (s.filters.chainAt c).isReset)
    (hzero : ∀ row ∈ s.buffer, ∀ x ∈ row, x = 0) :
    (∀ row ∈ (processBlock (onePoleClasses K) R M p channels s).buffer, ∀ y ∈ row, y = 0) ∧
    (processBlock (onePoleClasses K) R M p channels s).buffer = s.buffer ∧
    ∀ c, c < channels →
      ((processBlock (onePoleClasses K) R M p channels s).filters.chainAt c).isReset := by
  have hth' : (-100 : α) ≤ p.Threshold := le_trans (by norm_num) hth.1
  have key : ∀ n, n ≤ channels →
      (processBlock (onePoleClasses K) R M p n s).buffer = s.buffer ∧
      ∀ c, c < channels →
        ((processBlock (onePoleClasses K) R M p n s).filters.chainAt c).isReset := by
    intro n
    induction n with
    | zero =>
      intro _
      exact ⟨rfl, hreset⟩
    | succ n ih =>
      intro hn
      have h := ih (by omega)
      have hz : ∀ row ∈ (processBlock (onePoleClasses K) R M p n s).buffer,
          ∀ x ∈ row, x = 0 := by
        rw [h.1]
        exact hzero
      have hstep := processChannel_silence K R M p hth'
        (processBlock (onePoleClasses K) R M p n s) n (h.2 n (by omega)) hz
      rw [processBlock_succ]
      exact ⟨hstep.1.trans h.1, fun c hc => hstep.2 c (h.2 c hc)⟩
  have hk := key channels (le_refl _)
  refine ⟨?_, hk.1, hk.2⟩
  rw [hk.1]
  exact hzero

theorem prepareToPlay_isReset [FloorRing α] (sampleRate : α) (samplesPerBlock : Int)
    (m : FilterArrays (onePoleClasses K)) (c : Nat) (hc : c < 2) :
    ((prepareToPlay (onePoleClasses K) sampleRate samplesPerBlock m).chainAt c).isReset := by
  have h01 : c = 0 ∨ c = 1 := by omega
  rw [prepareToPlay_chainAt _ sampleRate samplesPerBlock m c h01]
  simp [Chain.isReset, onePoleClasses, OnePoleFilter.init]

end Silence

/-! ## Evaluations at concrete inputs -/

theorem ratLibm_pow10_mono : Monotone ratLibm.pow10 := by
  intro x y h
  exact zpow_le_zpow_right₀ (by norm_num) (Int.floor_mono h)

theorem ratLibm_pow10_nonneg (x : ℚ) : 0 ≤ ratLibm.pow10 x :=
  zpow_nonneg (by norm_num) _

/-- With the real power function `10^x`, a Volume of +12 dB is a gain between 3.98 and
3.99. -/
theorem decibelsToGain_twelve :
    (3.98 : ℝ) < decibelsToGain ⟨fun x => (10 : ℝ) ^ x, Real.logb 10⟩ 12 ∧
    decibelsToGain ⟨fun x => (10 : ℝ) ^ x, Real.logb 10⟩ 12 < 3.99 := by
  have hg : decibelsToGain ⟨fun x => (10 : ℝ) ^ x, Real.logb 10⟩ 12 =
      ((10 : ℝ) ^ (3 : ℕ)) ^ ((1 : ℝ) / 5) := by
    unfold decibelsToGain defaultMinusInfinitydB
    rw [if_pos (by norm_num)]
    simp only
    rw [← Real.rpow_natCast, ← Real.rpow_mul (by norm_num)]
    norm_num
  have h1 : (3.98 : ℝ) = ((3.98 : ℝ) ^ (5 : ℕ)) ^ ((1 : ℝ) / 5) := by
    rw [← Real.rpow_natCast, ← Real.rpow_mul (by norm_num)]
    norm_num
  have h2 : (3.99 : ℝ) = ((3.99 : ℝ) ^ (5 : ℕ)) ^ ((1 : ℝ) / 5) := by
    rw [← Real.rpow_natCast, ← Real.rpow_mul (by norm_num)]
    norm_num
  rw [hg]
  constructor
  · rw [h1]
    exact Real.rpow_lt_rpow (by positivity) (by norm_num) (by norm_num)
  · rw [h2]
    exact Real.rpow_lt_rpow (by positivity) (by norm_num) (by norm_num)

theorem processBlock_mix_zero_witness :
    dryParameters.Mix = 0 ∧ 0 < 1 ∧
    (processBlock (onePoleClasses halfCoefs) stdRand ratLibm dryParameters 1
        dryState).buffer.getD 0 [] =
      [decibelsToGain ratLibm 12 * 1, decibelsToGain ratLibm 12 * -1,
       decibelsToGain ratLibm 12 * (1 / 2)] :=
  ⟨rfl, by decide,
   processBlock_mix_zero (onePoleClasses halfCoefs) stdRand ratLibm dryParameters rfl 1
     dryState 0 (by decide)⟩

theorem processBlock_gain_monotone_witness :
    Monotone ratLibm.pow10 ∧ (∀ x, 0 ≤ ratLibm.pow10 x) ∧ (-12 : ℚ) ≤ 12 ∧ 1 < 2 ∧
    List.Forall₂ (fun y1 y2 : ℚ => |y1| ≤ |y2|)
      ((processBlock (onePoleClasses halfCoefs) stdRand ratLibm
        { defaultParameters with Volume := -12 } 2 stereoState).buffer.getD 1 [])
      ((processBlock (onePoleClasses halfCoefs) stdRand ratLibm
        { defaultParameters with Volume := 12 } 2 stereoState).buffer.getD 1 []) :=
  ⟨ratLibm_pow10_mono, ratLibm_pow10_nonneg, by norm_num, by decide,
   processBlock_gain_monotone (onePoleClasses halfCoefs) stdRand ratLibm ratLibm_pow10_mono
     ratLibm_pow10_nonneg defaultParameters (-12) 12 (by norm_num) 2 stereoState 1
     (by decide)⟩

/-- C7, counterexample: two channels, each holding the single sample 4.0, default
parameters, prepared one-pole filters with every coefficient 1/2, generator seed 1.
Channel 1 has the same input, the same filter objects and the same parameters in both
runs, yet it is written -21251/2097088 when channel 0 is processed before it (its draw
is the second one, 5758) and 909/2097088 when it is processed first (its draw is the
first one, 16838). -/
theorem channel_output_depends_on_earlier_channel :
    (processBlock (onePoleClasses halfCoefs) stdRand ratLibm defaultParameters 2
        stereoState).buffer.getD 1 [] = [-21251 / 2097088] ∧
    (processChannel (onePoleClasses halfCoefs) stdRand ratLibm defaultParameters
        stereoState 1).buffer.getD 1 [] = [909 / 2097088] ∧
    (processBlock (onePoleClasses halfCoefs) stdRand ratLibm defaultParameters 2
        stereoState).buffer.getD 1 [] ≠
      (processChannel (onePoleClasses halfCoefs) stdRand ratLibm defaultParameters
        stereoState 1).buffer.getD 1 [] := by
  have hafter : (processBlock (onePoleClasses halfCoefs) stdRand ratLibm defaultParameters 2
      stereoState).buffer.getD 1 [] = [-21251 / 2097088] := by
    simp [processBlock, processChannel, sampleLoop, processSample, stereoState,
      defaultParameters, List.range, List.range.loop, preparedArrays, prepareToPlay,
      rawArrays, rawFilter, onePoleClasses, halfCoefs, stdRand, ratLibm, setCoefs,
      FilterArrays.chainAt, FilterArrays.setChainAt, OnePoleFilter.process,
      OnePoleFilter.init, OnePoleFilter.setCoefCutoff, OnePoleFilter.setCoefTimes,
      OnePoleFilter.setCoefTone, isAboveThreshold, gainToDecibels, decibelsToGain,
      defaultMinusInfinitydB, generateNoise, mappedDraw, truncToInt]
    norm_num
  have hfirst : (processChannel (onePoleClasses halfCoefs) stdRand ratLibm defaultParameters
      stereoState 1).buffer.getD 1 [] = [909 / 2097088] := by
    simp [processChannel, sampleLoop, processSample, stereoState,
      defaultParameters, preparedArrays, prepareToPlay,
      rawArrays, rawFilter, onePoleClasses, halfCoefs, stdRand, ratLibm, setCoefs,
      FilterArrays.chainAt, OnePoleFilter.process,
      OnePoleFilter.init, OnePoleFilter.setCoefCutoff, OnePoleFilter.setCoefTimes,
      OnePoleFilter.setCoefTone, isAboveThreshold, gainToDecibels, decibelsToGain,
      defaultMinusInfinitydB, generateNoise, mappedDraw, truncToInt]
    norm_num
  refine ⟨hafter, hfirst, ?_⟩
  rw [hafter, hfirst]
  norm_num

theorem processBlock_channel_output_witness :
    1 < 2 ∧
    (processBlock (onePoleClasses halfCoefs) stdRand ratLibm defaultParameters 2
        stereoState).buffer.getD 1 [] =
      (sampleLoop (onePoleClasses halfCoefs) stdRand ratLibm (-12) 1 (1 - 1)
        (decibelsToGain ratLibm 0)
        (setCoefs (onePoleClasses halfCoefs) defaultParameters
          (stereoState.filters.chainAt 1))
        (stdRand.advance 1 stereoState.rng) [4]).1 :=
  ⟨by decide,
   (processBlock_channel_output (onePoleClasses halfCoefs) stdRand ratLibm defaultParameters
     2 stereoState 1 (by decide)).1⟩

theorem processBlock_noninterference_witness :
    (processBlock (onePoleClasses halfCoefs) stdRand ratLibm defaultParameters 2
        stereoState).buffer.getD 1 [] =
      (processBlock (onePoleClasses halfCoefs) stdRand ratLibm defaultParameters 2
        stereoStateAlt).buffer.getD 1 [] :=
  processBlock_noninterference (onePoleClasses halfCoefs) stdRand ratLibm defaultParameters 2
    (1 : Nat) (preparedArrays halfCoefs) [[4], [4]] [[-3], [4]] rfl
    (fun c hc => match c, hc with
      | 0, h => absurd rfl h
      | 1, _ => rfl
      | _ + 2, _ => rfl)
    1 (by decide)

theorem processBlock_sample_pipeline_witness :
    1 < 2 ∧ 0 < (stereoState.buffer.getD 1 []).length ∧
    ((processBlock (onePoleClasses halfCoefs) stdRand ratLibm defaultParameters 2
        stereoState).buffer.getD 1 []).getD 0 0 = -21251 / 2097088 :=
  ⟨by decide, by decide,
   (processBlock_sample_pipeline (onePoleClasses halfCoefs) stdRand ratLibm
     defaultParameters 2 stereoState 1 (by decide) 0 (by decide)).1.trans (by
      simp [stateAtSample, processBlock, processChannel, sampleLoop, processSample,
        stereoState, defaultParameters, List.range, List.range.loop, preparedArrays,
        prepareToPlay, rawArrays, rawFilter, onePoleClasses, halfCoefs, stdRand, ratLibm,
        setCoefs, FilterArrays.chainAt, FilterArrays.setChainAt, OnePoleFilter.process,
        OnePoleFilter.init, OnePoleFilter.setCoefCutoff, OnePoleFilter.setCoefTimes,
        OnePoleFilter.setCoefTone, gainToDecibels, decibelsToGain, defaultMinusInfinitydB,
        truncToInt]
      norm_num)⟩

theorem prepareToPlay_covers_channels_witness :
    isBusesLayoutSupported false false stereoLayout = true ∧
    isBusesLayoutSupported false false ⟨[1, 3], [1, 3]⟩ = false ∧
    getTotalNumOutputChannels stereoLayout ≤ 2 :=
  ⟨by decide, by decide,
   ((prepareToPlay_covers_channels (onePoleClasses halfCoefs) 48000 512 (rawArrays halfCoefs)
     stereoLayout).2 (by decide)).1⟩

theorem processBlock_silence_witness :
    defaultParameters.Threshold ∈ Set.Icc (-60 : ℚ) 0 ∧
    (processBlock (onePoleClasses halfCoefs) stdRand ratLibm defaultParameters 2
        silentState).buffer = [[0, 0, 0], [0, 0, 0]] :=
  ⟨⟨by norm_num [defaultParameters], by norm_num [defaultParameters]⟩,
   (processBlock_silence halfCoefs stdRand ratLibm defaultParameters
     ⟨by norm_num [defaultParameters], by norm_num [defaultParameters]⟩ 2 silentState
     (fun c hc => prepareToPlay_isReset halfCoefs 48000 512 (rawArrays halfCoefs) c hc)
     (by
      intro row hrow x hx
      simp only [silentState, List.mem_cons, List.mem_singleton, List.not_mem_nil,
        or_false, or_self] at hrow
      subst hrow
      simpa using hx)).2.1⟩

end NoiseEnhancer
